import Mathlib

/-!
Verification of the BCCE 2024 afternoon-session notebook
(`BCCE_ML_afternoon_session.ipynb`): a shallow embedding of its
descriptor-calculation pipeline, feature-scaling cell and random-forest
hyperparameter sweep loop, together with proofs of the specified
properties.  Machine reals are modelled by `ℚ`; external library calls
(RDKit molecule parsing, sklearn model fit/predict) are parameters of
the embedded functions; Python exceptions are modelled by `Except` /
`Option`.
-/

namespace BCCE

/-! ### Molecules and the aromatic-proportion descriptor (cells 21, 29-31) -/

/-- An atom, carrying only the aromaticity flag that `aromatic_calc` inspects. -/
structure Atom where
  aromatic : Bool
deriving DecidableEq

/-- An RDKit molecule object, abstracted to its list of atoms. -/
structure Mol where
  atoms : List Atom
deriving DecidableEq

/-- RDKit `mol.GetNumAtoms()`. -/
def Mol.GetNumAtoms (m : Mol) : Nat := m.atoms.length

/-- RDKit `mol.GetAromaticAtoms()`. -/
def Mol.GetAromaticAtoms (m : Mol) : List Atom := m.atoms.filter (fun a => a.aromatic)

/-- The notebook's `aromatic_calc`:
`prop_aromatic = len(mol.GetAromaticAtoms())/mol.GetNumAtoms()`.
Python true division raises `ZeroDivisionError` on a zero-atom molecule,
modelled as `none`. -/
def aromatic_calc (mol : Mol) : Option ℚ :=
  if mol.GetNumAtoms = 0 then none
  else some ((mol.GetAromaticAtoms.length : ℚ) / (mol.GetNumAtoms : ℚ))

/-- The notebook's `df['mol'] = df['smiles'].apply(Chem.MolFromSmiles)`:
the parser (an external RDKit capability, hence a parameter) is mapped over
the SMILES column; a failed parse is stored as a null (`none`) entry, with
no row dropped and no flag added. -/
def applyMolFromSmiles (MolFromSmiles : String → Option Mol) (smilesCol : List String) :
    List (Option Mol) :=
  smilesCol.map MolFromSmiles

/-- The notebook's `df['mol'].apply(f)` for a descriptor `f` such as
`aromatic_calc`: pandas applies `f` to each entry of the `mol` column in
order and raises the first exception it hits.  Calling a molecule method on
a `None` entry raises `AttributeError`; the descriptor's own exceptional
result (`f m = none`, i.e. `aromatic_calc`'s `ZeroDivisionError` on a
zero-atom molecule) is likewise raised, not stored. -/
def applyDescriptor (f : Mol → Option ℚ) : List (Option Mol) → Except String (List ℚ)
  | [] => Except.ok []
  | none :: _ => Except.error "AttributeError"
  | some m :: rest =>
    match f m with
    | none => Except.error "ZeroDivisionError"
    | some q =>
      match applyDescriptor f rest with
      | Except.error e => Except.error e
      | Except.ok qs => Except.ok (q :: qs)

/-! ### Scoring functions (sklearn `mean_squared_error`, `r2_score`) -/

/-- sklearn `mean_squared_error(y_true, y_pred)`. -/
def mean_squared_error (y_true y_pred : List ℚ) : ℚ :=
  (List.zipWith (fun a b => (a - b) ^ 2) y_true y_pred).sum / (y_true.length : ℚ)

/-- sklearn `r2_score(y_true, y_pred)`, including its convention for a
constant `y_true` (total sum of squares zero): `1.0` when the residual sum
is also zero, else `0.0`. -/
def r2_score (y_true y_pred : List ℚ) : ℚ :=
  let ss_res := (List.zipWith (fun a b => (a - b) ^ 2) y_true y_pred).sum
  let y_mean := y_true.sum / (y_true.length : ℚ)
  let ss_tot := (y_true.map (fun a => (a - y_mean) ^ 2)).sum
  if ss_tot = 0 then (if ss_res = 0 then 1 else 0) else 1 - ss_res / ss_tot

/-! ### The hyperparameter sweep loop (cell 57)

The notebook code:

```
tree_count = []
tree_depth = []
tuned_rf_MSE = []
tuned_rf_R2 = []
for tree in trees:
    for depth in depths:
        tuned_rf_model = RandomForestRegressor(n_estimators = tree, max_depth = depth)
        tuned_rf_model.fit(x_train_scaled, y_train)
        y_pred_tuned_rf = tuned_rf_model.predict(x_test_scaled)
        tree_count.append(tree)
        tree_depth.append(depth)
        tuned_rf_MSE.append(mean_squared_error(y_test, y_pred_tuned_rf))
        tuned_rf_R2.append(r2_score(y_test, y_pred_tuned_rf))
results_df = pd.DataFrame(...)
```

The composite library call `RandomForestRegressor(n_estimators = tree,
max_depth = depth).fit(x_train_scaled, y_train).predict(x_test_scaled)` is an
external sklearn capability; it is abstracted as a parameter
`fit : Nat → Nat → Except String (List ℚ)` (the training and test feature
matrices live in its closure), returning the prediction vector or raising a
library exception.  The sweep's own state is the four Python lists; the
embedding additionally records the trace of `fit` invocations and the
escaped exception, so that call order and abort behaviour are provable. -/

/-- The four mutable result lists of cell 57. -/
structure SweepState where
  tree_count : List Nat
  tree_depth : List Nat
  tuned_rf_MSE : List ℚ
  tuned_rf_R2 : List ℚ
deriving DecidableEq

/-- The four lists start empty. -/
def initLists : SweepState := ⟨[], [], [], []⟩

/-- The four `append` statements in the loop body. -/
def appendResult (s : SweepState) (tree depth : Nat) (y_test y_pred : List ℚ) : SweepState :=
  { tree_count := s.tree_count ++ [tree]
    tree_depth := s.tree_depth ++ [depth]
    tuned_rf_MSE := s.tuned_rf_MSE ++ [mean_squared_error y_test y_pred]
    tuned_rf_R2 := s.tuned_rf_R2 ++ [r2_score y_test y_pred] }

/-- The external model: construct, fit and predict for one grid cell,
given `(n_estimators, max_depth)`. -/
abbrev FitPredict := Nat → Nat → Except String (List ℚ)

/-- The inner `for depth in depths:` loop at a fixed `tree`.  Returns the
final list state, the trace of grid cells at which `fit` was invoked, and
the escaped exception if one was raised. -/
def forDepths (fit : FitPredict) (y_test : List ℚ) (tree : Nat) :
    List Nat → SweepState → SweepState × List (Nat × Nat) × Option String
  | [], s => (s, [], none)
  | depth :: rest, s =>
    match fit tree depth with
    | Except.error e => (s, [(tree, depth)], some e)
    | Except.ok y_pred =>
      let r := forDepths fit y_test tree rest (appendResult s tree depth y_test y_pred)
      (r.1, (tree, depth) :: r.2.1, r.2.2)

/-- The outer `for tree in trees:` loop. -/
def forTrees (fit : FitPredict) (y_test : List ℚ) (depths : List Nat) :
    List Nat → SweepState → SweepState × List (Nat × Nat) × Option String
  | [], s => (s, [], none)
  | tree :: rest, s =>
    match forDepths fit y_test tree depths s with
    | (s', calls, some e) => (s', calls, some e)
    | (s', calls, none) =>
      let r := forTrees fit y_test depths rest s'
      (r.1, calls ++ r.2.1, r.2.2)

/-- The whole sweep of cell 57, starting from the four empty lists. -/
def tuned_rf_sweep (fit : FitPredict) (y_test : List ℚ) (trees depths : List Nat) :
    SweepState × List (Nat × Nat) × Option String :=
  forTrees fit y_test depths trees initLists

/-- The grid cells in the order in which the nested loops visit them:
row-major, `trees` outer, `depths` inner. -/
def rowMajorGrid (trees depths : List Nat) : List (Nat × Nat) :=
  trees.flatMap (fun t => depths.map (fun d => (t, d)))

/-- Processing an explicit list of grid cells sequentially: the linear view
of the nested loops, used to reason about them uniformly. -/
def runCells (fit : FitPredict) (y_test : List ℚ) :
    List (Nat × Nat) → SweepState → SweepState × List (Nat × Nat) × Option String
  | [], s => (s, [], none)
  | (t, d) :: rest, s =>
    match fit t d with
    | Except.error e => (s, [(t, d)], some e)
    | Except.ok y_pred =>
      let r := runCells fit y_test rest (appendResult s t d y_test y_pred)
      (r.1, (t, d) :: r.2.1, r.2.2)

/-! ### Bridging lemmas: the nested loops are `runCells` over the row-major grid -/

theorem forDepths_eq_runCells (fit : FitPredict) (y_test : List ℚ) (tree : Nat)
    (depths : List Nat) (s : SweepState) :
    forDepths fit y_test tree depths s =
      runCells fit y_test (depths.map (fun d => (tree, d))) s := by
  induction depths generalizing s with
  | nil => rfl
  | cons d rest ih =>
    simp only [forDepths, List.map_cons, runCells]
    cases fit tree d with
    | error e => rfl
    | ok y_pred => simp only [ih]

theorem runCells_append_of_ok (fit : FitPredict) (y_test : List ℚ)
    (c₁ c₂ : List (Nat × Nat)) (s : SweepState)
    (h : (runCells fit y_test c₁ s).2.2 = none) :
    runCells fit y_test (c₁ ++ c₂) s =
      ((runCells fit y_test c₂ (runCells fit y_test c₁ s).1).1,
       (runCells fit y_test c₁ s).2.1 ++
         (runCells fit y_test c₂ (runCells fit y_test c₁ s).1).2.1,
       (runCells fit y_test c₂ (runCells fit y_test c₁ s).1).2.2) := by
  induction c₁ generalizing s with
  | nil => simp [runCells]
  | cons c rest ih =>
    obtain ⟨t, d⟩ := c
    simp only [runCells, List.cons_append, List.append_eq] at h ⊢
    cases hf : fit t d with
    | error e =>
      rw [hf] at h
      exact Option.noConfusion h
    | ok y_pred =>
      rw [hf] at h
      simp only [hf]
      dsimp only at h ⊢
      rw [ih _ h]
      simp

theorem runCells_append_of_error (fit : FitPredict) (y_test : List ℚ)
    (c₁ c₂ : List (Nat × Nat)) (s : SweepState) (e : String)
    (h : (runCells fit y_test c₁ s).2.2 = some e) :
    runCells fit y_test (c₁ ++ c₂) s = runCells fit y_test c₁ s := by
  induction c₁ generalizing s with
  | nil => simp [runCells] at h
  | cons c rest ih =>
    obtain ⟨t, d⟩ := c
    simp only [runCells, List.cons_append, List.append_eq] at h ⊢
    cases hf : fit t d with
    | error e => rfl
    | ok y_pred =>
      rw [hf] at h
      simp only [hf]
      dsimp only at h ⊢
      rw [ih _ h]

theorem forTrees_eq_runCells (fit : FitPredict) (y_test : List ℚ) (depths : List Nat)
    (trees : List Nat) (s : SweepState) :
    forTrees fit y_test depths trees s =
      runCells fit y_test (trees.flatMap (fun t => depths.map (fun d => (t, d)))) s := by
  induction trees generalizing s with
  | nil => rfl
  | cons t rest ih =>
    simp only [forTrees, List.flatMap_cons, forDepths_eq_runCells]
    cases hinner : runCells fit y_test (depths.map (fun d => (t, d))) s with
    | mk s' r =>
      obtain ⟨calls, err⟩ := r
      cases err with
      | none =>
        rw [runCells_append_of_ok fit y_test _ _ s (by rw [hinner]), hinner]
        dsimp only
        rw [ih s']
      | some e =>
        rw [runCells_append_of_error fit y_test _ _ s e (by rw [hinner]), hinner]

/-- The whole sweep is `runCells` over the row-major grid, starting from
empty lists. -/
theorem tuned_rf_sweep_eq_runCells (fit : FitPredict) (y_test : List ℚ)
    (trees depths : List Nat) :
    tuned_rf_sweep fit y_test trees depths =
      runCells fit y_test (rowMajorGrid trees depths) initLists :=
  forTrees_eq_runCells fit y_test depths trees initLists

/-- With an always-succeeding library model `fun t d => .ok (f t d)`,
processing a cell list appends exactly one entry per cell to each of the
four result lists, invokes `fit` at every cell in order, and raises
nothing. -/
theorem runCells_pure (f : Nat → Nat → List ℚ) (y_test : List ℚ)
    (cells : List (Nat × Nat)) (s : SweepState) :
    runCells (fun t d => Except.ok (f t d)) y_test cells s =
      ({ tree_count := s.tree_count ++ cells.map (fun c => c.1)
         tree_depth := s.tree_depth ++ cells.map (fun c => c.2)
         tuned_rf_MSE :=
           s.tuned_rf_MSE ++ cells.map (fun c => mean_squared_error y_test (f c.1 c.2))
         tuned_rf_R2 := s.tuned_rf_R2 ++ cells.map (fun c => r2_score y_test (f c.1 c.2)) },
       cells, none) := by
  induction cells generalizing s with
  | nil => simp [runCells]
  | cons c rest ih =>
    obtain ⟨t, d⟩ := c
    simp only [runCells, ih, appendResult, List.map_cons]
    simp

theorem rowMajorGrid_length (trees depths : List Nat) :
    (rowMajorGrid trees depths).length = trees.length * depths.length := by
  induction trees with
  | nil => simp [rowMajorGrid]
  | cons t rest ih =>
    simp only [rowMajorGrid, List.flatMap_cons, List.length_append, List.length_map,
      List.length_cons] at ih ⊢
    rw [ih]
    ring

theorem zip_map_fst_snd {α β : Type} (l : List (α × β)) :
    (l.map (fun c => c.1)).zip (l.map (fun c => c.2)) = l := by
  induction l with
  | nil => rfl
  | cons c rest ih => simp [ih]

/-- Claim C1: for non-empty `trees` and `depths` and an always-succeeding
model (library predictor `f`), the sweep raises nothing and its four result
columns are exactly the per-cell values over `rowMajorGrid trees depths` —
one result per cell of the Cartesian product, `trees` outer and `depths`
inner, with no deduplication and no sorting — and the number of results is
`|trees| * |depths|`. -/
theorem C1_sweep_row_major_product (f : Nat → Nat → List ℚ) (y_test : List ℚ)
    (trees depths : List Nat) (_htrees : trees ≠ []) (_hdepths : depths ≠ []) :
    tuned_rf_sweep (fun t d => Except.ok (f t d)) y_test trees depths =
      ({ tree_count := (rowMajorGrid trees depths).map (fun c => c.1)
         tree_depth := (rowMajorGrid trees depths).map (fun c => c.2)
         tuned_rf_MSE :=
           (rowMajorGrid trees depths).map (fun c => mean_squared_error y_test (f c.1 c.2))
         tuned_rf_R2 := (rowMajorGrid trees depths).map (fun c => r2_score y_test (f c.1 c.2)) },
       rowMajorGrid trees depths, none) ∧
    ((rowMajorGrid trees depths).map (fun c => c.1)).zip
        ((rowMajorGrid trees depths).map (fun c => c.2)) = rowMajorGrid trees depths ∧
    (rowMajorGrid trees depths).length = trees.length * depths.length := by
  refine ⟨?_, zip_map_fst_snd _, rowMajorGrid_length trees depths⟩
  rw [tuned_rf_sweep_eq_runCells, runCells_pure]
  simp [initLists]

/-- A concrete always-succeeding library predictor, used to instantiate
hypotheses at concrete inputs. -/
def constPred (t d : Nat) : List ℚ := [(t : ℚ) + (d : ℚ)]

/-- Witness for C1 at the spec's example scenario: `trees = [50, 100]`,
`depths = [1, 3]` visit exactly the four cells `(50,1), (50,3), (100,1),
(100,3)` in that order. -/
theorem C1_sweep_row_major_product_witness :
    (tuned_rf_sweep (fun t d => Except.ok (constPred t d)) [0] [50, 100] [1, 3]).2.1 =
      [(50, 1), (50, 3), (100, 1), (100, 3)] := by
  have h := C1_sweep_row_major_product constPred [0] [50, 100] [1, 3]
    (by decide) (by decide)
  rw [h.1]
  rfl

/-- Claim C4: the sweep adds no randomness of its own — if the underlying
model's randomness is seeded identically on both runs (`seed₁ = seed₂`,
acting through the seeded library model `fitS`), the two runs produce
identical MSE and R2 values in every grid cell. -/
theorem C4_sweep_deterministic (fitS : Nat → FitPredict) (seed₁ seed₂ : Nat)
    (y_test : List ℚ) (trees depths : List Nat) (h : seed₁ = seed₂) :
    (tuned_rf_sweep (fitS seed₁) y_test trees depths).1.tuned_rf_MSE =
      (tuned_rf_sweep (fitS seed₂) y_test trees depths).1.tuned_rf_MSE ∧
    (tuned_rf_sweep (fitS seed₁) y_test trees depths).1.tuned_rf_R2 =
      (tuned_rf_sweep (fitS seed₂) y_test trees depths).1.tuned_rf_R2 := by
  rw [h]
  exact ⟨rfl, rfl⟩

/-- A concrete seeded library model for the C4 witness. -/
def seededPred (seed : Nat) : FitPredict :=
  fun t d => Except.ok [(seed : ℚ), (t : ℚ) + (d : ℚ)]

/-- Witness for C4 at seed 7 on a 1×1 grid. -/
theorem C4_sweep_deterministic_witness :
    (tuned_rf_sweep (seededPred 7) [0] [50] [1]).1.tuned_rf_MSE =
      (tuned_rf_sweep (seededPred 7) [0] [50] [1]).1.tuned_rf_MSE ∧
    (tuned_rf_sweep (seededPred 7) [0] [50] [1]).1.tuned_rf_R2 =
      (tuned_rf_sweep (seededPred 7) [0] [50] [1]).1.tuned_rf_R2 :=
  C4_sweep_deterministic seededPred 7 7 [0] [50] [1] rfl

/-- Processing `pre ++ (t₀, d₀) :: post` where `fit` succeeds on every cell
of `pre` and raises at `(t₀, d₀)`: the exception escapes, `fit` is invoked
exactly on `pre ++ [(t₀, d₀)]` (never on `post`), and only `pre`'s results
were recorded. -/
theorem runCells_fail_after (fit : FitPredict) (y_test : List ℚ)
    (pre post : List (Nat × Nat)) (t₀ d₀ : Nat) (e : String) (s : SweepState)
    (hpre : ∀ c ∈ pre, ∃ y_pred, fit c.1 c.2 = Except.ok y_pred)
    (hfail : fit t₀ d₀ = Except.error e) :
    (runCells fit y_test (pre ++ (t₀, d₀) :: post) s).2.2 = some e ∧
    (runCells fit y_test (pre ++ (t₀, d₀) :: post) s).2.1 = pre ++ [(t₀, d₀)] ∧
    (runCells fit y_test (pre ++ (t₀, d₀) :: post) s).1.tuned_rf_MSE.length =
      s.tuned_rf_MSE.length + pre.length := by
  induction pre generalizing s with
  | nil =>
    simp [runCells, hfail]
  | cons c rest ih =>
    obtain ⟨t, d⟩ := c
    obtain ⟨y_pred, hok⟩ := hpre (t, d) (List.mem_cons_self _ _)
    have ihr := ih (appendResult s t d y_test y_pred)
      (fun c hc => hpre c (List.mem_cons_of_mem _ hc))
    simp only [List.cons_append, runCells, hok, List.append_eq]
    refine ⟨ihr.1, ?_, ?_⟩
    · rw [ihr.2.1]
    · rw [ihr.2.2]
      simp [appendResult]
      omega

/-- Claim C5: if fit/predict raises inside a single grid cell — the cell
`(t₀, d₀)` after the successful cells `pre` — the entire sweep aborts: the
exception is surfaced to the caller (`some e`), no cell after the failing
one is ever invoked (the call trace is exactly `pre ++ [(t₀, d₀)]`), the
failing cell is not skipped, and no complete result sequence is produced
(only `|pre| < |trees| * |depths|` results exist). -/
theorem C5_cell_failure_aborts (fit : FitPredict) (y_test : List ℚ)
    (trees depths : List Nat) (pre post : List (Nat × Nat)) (t₀ d₀ : Nat) (e : String)
    (hgrid : rowMajorGrid trees depths = pre ++ (t₀, d₀) :: post)
    (hpre : ∀ c ∈ pre, ∃ y_pred, fit c.1 c.2 = Except.ok y_pred)
    (hfail : fit t₀ d₀ = Except.error e) :
    (tuned_rf_sweep fit y_test trees depths).2.2 = some e ∧
    (tuned_rf_sweep fit y_test trees depths).2.1 = pre ++ [(t₀, d₀)] ∧
    (tuned_rf_sweep fit y_test trees depths).1.tuned_rf_MSE.length = pre.length ∧
    (tuned_rf_sweep fit y_test trees depths).1.tuned_rf_MSE.length <
      trees.length * depths.length := by
  have hrun := runCells_fail_after fit y_test pre post t₀ d₀ e initLists hpre hfail
  have hlen : pre.length < trees.length * depths.length := by
    have := rowMajorGrid_length trees depths
    rw [hgrid] at this
    simp only [List.length_append, List.length_cons] at this
    omega
  rw [tuned_rf_sweep_eq_runCells, hgrid]
  refine ⟨hrun.1, hrun.2.1, ?_, ?_⟩
  · rw [hrun.2.2]
    simp [initLists]
  · rw [hrun.2.2]
    simpa [initLists] using hlen

/-- A concrete library model that raises at grid cell `(50, 3)`. -/
def failAt50_3 : FitPredict :=
  fun t d => if t = 50 ∧ d = 3 then Except.error "FitFailure" else Except.ok [0]

/-- Witness for C5: on `trees = [50]`, `depths = [1, 3]` with a model that
raises at the second cell, the sweep surfaces the exception, calls exactly
the first two cells, and records a single (incomplete) result. -/
theorem C5_cell_failure_aborts_witness :
    (tuned_rf_sweep failAt50_3 [0] [50] [1, 3]).2.2 = some "FitFailure" ∧
    (tuned_rf_sweep failAt50_3 [0] [50] [1, 3]).2.1 = [(50, 1), (50, 3)] ∧
    (tuned_rf_sweep failAt50_3 [0] [50] [1, 3]).1.tuned_rf_MSE.length = 1 ∧
    (tuned_rf_sweep failAt50_3 [0] [50] [1, 3]).1.tuned_rf_MSE.length < 2 := by
  have h := C5_cell_failure_aborts failAt50_3 [0] [50] [1, 3] [(50, 1)] [] 50 3
    "FitFailure" rfl
    (by
      intro c hc
      simp only [List.mem_singleton] at hc
      subst hc
      exact ⟨[0], rfl⟩)
    rfl
  simpa using h

/-! ### Properties of the scoring functions -/

theorem sum_zipWith_sq_nonneg (ys yp : List ℚ) :
    0 ≤ (List.zipWith (fun a b => (a - b) ^ 2) ys yp).sum := by
  induction ys generalizing yp with
  | nil => simp
  | cons a rest ih =>
    cases yp with
    | nil => simp
    | cons b yrest =>
      simp only [List.zipWith_cons_cons, List.sum_cons]
      exact add_nonneg (sq_nonneg _) (ih yrest)

theorem sum_map_sq_nonneg (ys : List ℚ) (μ : ℚ) :
    0 ≤ (ys.map (fun a => (a - μ) ^ 2)).sum := by
  induction ys with
  | nil => simp
  | cons a rest ih =>
    simp only [List.map_cons, List.sum_cons]
    exact add_nonneg (sq_nonneg _) ih

theorem mean_squared_error_nonneg (y_true y_pred : List ℚ) :
    0 ≤ mean_squared_error y_true y_pred :=
  div_nonneg (sum_zipWith_sq_nonneg y_true y_pred) (Nat.cast_nonneg _)

theorem r2_score_le_one (y_true y_pred : List ℚ) : r2_score y_true y_pred ≤ 1 := by
  dsimp only [r2_score]
  split_ifs
  · exact le_refl 1
  · exact zero_le_one
  · have h1 : 0 ≤ (List.zipWith (fun a b => (a - b) ^ 2) y_true y_pred).sum :=
      sum_zipWith_sq_nonneg y_true y_pred
    have h2 : 0 ≤ (y_true.map
        (fun a => (a - y_true.sum / (y_true.length : ℚ)) ^ 2)).sum :=
      sum_map_sq_nonneg y_true _
    have := div_nonneg h1 h2
    linarith

/-- Every entry of the MSE (resp. R2) column of a `runCells` run either was
already in the initial state or is a `mean_squared_error` (resp. `r2_score`)
of `y_test` against some prediction vector. -/
theorem runCells_cols_scores (fit : FitPredict) (y_test : List ℚ)
    (cells : List (Nat × Nat)) (s : SweepState) :
    (∀ m ∈ (runCells fit y_test cells s).1.tuned_rf_MSE,
      m ∈ s.tuned_rf_MSE ∨ ∃ y_pred, m = mean_squared_error y_test y_pred) ∧
    (∀ q ∈ (runCells fit y_test cells s).1.tuned_rf_R2,
      q ∈ s.tuned_rf_R2 ∨ ∃ y_pred, q = r2_score y_test y_pred) := by
  induction cells generalizing s with
  | nil => exact ⟨fun m hm => Or.inl hm, fun q hq => Or.inl hq⟩
  | cons c rest ih =>
    obtain ⟨t, d⟩ := c
    simp only [runCells]
    cases hf : fit t d with
    | error e => exact ⟨fun m hm => Or.inl hm, fun q hq => Or.inl hq⟩
    | ok y_pred =>
      have ihr := ih (appendResult s t d y_test y_pred)
      constructor
      · intro m hm
        rcases (ihr.1 m hm) with hmem | hval
        · simp only [appendResult, List.mem_append, List.mem_singleton] at hmem
          rcases hmem with h | h
          · exact Or.inl h
          · exact Or.inr ⟨y_pred, h⟩
        · exact Or.inr hval
      · intro q hq
        rcases (ihr.2 q hq) with hmem | hval
        · simp only [appendResult, List.mem_append, List.mem_singleton] at hmem
          rcases hmem with h | h
          · exact Or.inl h
          · exact Or.inr ⟨y_pred, h⟩
        · exact Or.inr hval

/-- Claim C7: in every result record the sweep produces, the MSE value is
non-negative and the R2 value is at most `1`, for any library model and any
grid. -/
theorem C7_mse_nonneg_r2_le_one (fit : FitPredict) (y_test : List ℚ)
    (trees depths : List Nat) :
    (∀ m ∈ (tuned_rf_sweep fit y_test trees depths).1.tuned_rf_MSE, 0 ≤ m) ∧
    (∀ q ∈ (tuned_rf_sweep fit y_test trees depths).1.tuned_rf_R2, q ≤ 1) := by
  rw [tuned_rf_sweep_eq_runCells]
  have h := runCells_cols_scores fit y_test (rowMajorGrid trees depths) initLists
  constructor
  · intro m hm
    rcases h.1 m hm with hmem | ⟨y_pred, hval⟩
    · simp [initLists] at hmem
    · rw [hval]
      exact mean_squared_error_nonneg y_test y_pred
  · intro q hq
    rcases h.2 q hq with hmem | ⟨y_pred, hval⟩
    · simp [initLists] at hmem
    · rw [hval]
      exact r2_score_le_one y_test y_pred

/-- A concrete constant library prediction for the C7 witness. -/
def zeroPredList (_t _d : Nat) : List ℚ := [0, 0]

/-- Witness for C7 on a 1×1 grid with `y_test = [0, 1]`: the single MSE
entry is non-negative and the single R2 entry is at most 1. -/
theorem C7_mse_nonneg_r2_le_one_witness :
    0 ≤ (tuned_rf_sweep (fun t d => Except.ok (zeroPredList t d))
        [0, 1] [1] [1]).1.tuned_rf_MSE.getD 0 0 ∧
    (tuned_rf_sweep (fun t d => Except.ok (zeroPredList t d))
        [0, 1] [1] [1]).1.tuned_rf_R2.getD 0 0 ≤ 1 := by
  have h := C7_mse_nonneg_r2_le_one (fun t d => Except.ok (zeroPredList t d)) [0, 1] [1] [1]
  refine ⟨h.1 _ ?_, h.2 _ ?_⟩ <;>
  · rw [tuned_rf_sweep_eq_runCells, runCells_pure]
    simp [initLists, rowMajorGrid]

/-! ### The equal-length invariant of the four result lists -/

/-- Any `runCells` run extends all four result lists by the same number of
entries: one per successfully evaluated cell, at most one per cell, and
exactly one per cell when the library never raises. -/
theorem runCells_lengths (fit : FitPredict) (y_test : List ℚ)
    (cells : List (Nat × Nat)) (s : SweepState) :
    ∃ n, (runCells fit y_test cells s).1.tree_count.length = s.tree_count.length + n ∧
      (runCells fit y_test cells s).1.tree_depth.length = s.tree_depth.length + n ∧
      (runCells fit y_test cells s).1.tuned_rf_MSE.length = s.tuned_rf_MSE.length + n ∧
      (runCells fit y_test cells s).1.tuned_rf_R2.length = s.tuned_rf_R2.length + n ∧
      n ≤ cells.length ∧
      ((∀ c ∈ cells, ∃ y_pred, fit c.1 c.2 = Except.ok y_pred) → n = cells.length) := by
  induction cells generalizing s with
  | nil => exact ⟨0, rfl, rfl, rfl, rfl, Nat.zero_le _, fun _ => rfl⟩
  | cons c rest ih =>
    obtain ⟨t, d⟩ := c
    simp only [runCells]
    cases hf : fit t d with
    | error e =>
      refine ⟨0, rfl, rfl, rfl, rfl, Nat.zero_le _, fun htot => ?_⟩
      obtain ⟨y_pred, hok⟩ := htot (t, d) (List.mem_cons_self _ _)
      rw [hf] at hok
      exact Except.noConfusion hok
    | ok y_pred =>
      obtain ⟨n, h1, h2, h3, h4, hle, htot⟩ := ih (appendResult s t d y_test y_pred)
      refine ⟨n + 1, ?_, ?_, ?_, ?_, ?_, ?_⟩
      · rw [h1]; simp [appendResult]; omega
      · rw [h2]; simp [appendResult]; omega
      · rw [h3]; simp [appendResult]; omega
      · rw [h4]; simp [appendResult]; omega
      · simp only [List.length_cons]; omega
      · intro hall
        have := htot (fun c hc => hall c (List.mem_cons_of_mem _ hc))
        simp only [List.length_cons]
        omega

/-- Claim C10: after any number `k` of inner-loop iterations (processing
the first `k` grid cells), the four result lists have equal lengths — equal
to `k` itself when the library never raises and `k` is within the grid —
and in particular the completed sweep's four columns, from which the final
result table is built, have identical lengths. -/
theorem C10_result_lists_equal_length (fit : FitPredict) (y_test : List ℚ)
    (trees depths : List Nat) (k : Nat) :
    ((runCells fit y_test ((rowMajorGrid trees depths).take k) initLists).1.tree_count.length =
        (runCells fit y_test ((rowMajorGrid trees depths).take k) initLists).1.tree_depth.length ∧
      (runCells fit y_test ((rowMajorGrid trees depths).take k) initLists).1.tree_depth.length =
        (runCells fit y_test ((rowMajorGrid trees depths).take k) initLists).1.tuned_rf_MSE.length ∧
      (runCells fit y_test ((rowMajorGrid trees depths).take k) initLists).1.tuned_rf_MSE.length =
        (runCells fit y_test ((rowMajorGrid trees depths).take k) initLists).1.tuned_rf_R2.length) ∧
    ((∀ t d, ∃ y_pred, fit t d = Except.ok y_pred) → k ≤ trees.length * depths.length →
      (runCells fit y_test ((rowMajorGrid trees depths).take k) initLists).1.tree_count.length = k) ∧
    ((tuned_rf_sweep fit y_test trees depths).1.tree_count.length =
        (tuned_rf_sweep fit y_test trees depths).1.tree_depth.length ∧
      (tuned_rf_sweep fit y_test trees depths).1.tree_depth.length =
        (tuned_rf_sweep fit y_test trees depths).1.tuned_rf_MSE.length ∧
      (tuned_rf_sweep fit y_test trees depths).1.tuned_rf_MSE.length =
        (tuned_rf_sweep fit y_test trees depths).1.tuned_rf_R2.length) := by
  obtain ⟨n, h1, h2, h3, h4, hle, htot⟩ :=
    runCells_lengths fit y_test ((rowMajorGrid trees depths).take k) initLists
  obtain ⟨m, g1, g2, g3, g4, -, -⟩ :=
    runCells_lengths fit y_test (rowMajorGrid trees depths) initLists
  refine ⟨⟨?_, ?_, ?_⟩, ?_, ?_⟩
  · rw [h1, h2]; simp [initLists]
  · rw [h2, h3]; simp [initLists]
  · rw [h3, h4]; simp [initLists]
  · intro hall hk
    have hn := htot (fun c _ => hall c.1 c.2)
    have hlen : ((rowMajorGrid trees depths).take k).length = k := by
      rw [List.length_take, rowMajorGrid_length]
      omega
    rw [h1, hn, hlen]
    simp [initLists]
  · rw [tuned_rf_sweep_eq_runCells]
    exact ⟨by rw [g1, g2]; simp [initLists], by rw [g2, g3]; simp [initLists],
      by rw [g3, g4]; simp [initLists]⟩

/-- Witness for C10 with a raising model on a 1×2 grid, taking `k = 1`. -/
theorem C10_result_lists_equal_length_witness :
    ((runCells failAt50_3 [0] ((rowMajorGrid [50] [1, 3]).take 1) initLists).1.tree_count.length =
        (runCells failAt50_3 [0] ((rowMajorGrid [50] [1, 3]).take 1) initLists).1.tree_depth.length ∧
      (runCells failAt50_3 [0] ((rowMajorGrid [50] [1, 3]).take 1) initLists).1.tree_depth.length =
        (runCells failAt50_3 [0] ((rowMajorGrid [50] [1, 3]).take 1) initLists).1.tuned_rf_MSE.length ∧
      (runCells failAt50_3 [0] ((rowMajorGrid [50] [1, 3]).take 1) initLists).1.tuned_rf_MSE.length =
        (runCells failAt50_3 [0] ((rowMajorGrid [50] [1, 3]).take 1) initLists).1.tuned_rf_R2.length) ∧
    ((∀ t d, ∃ y_pred, failAt50_3 t d = Except.ok y_pred) → 1 ≤ [50].length * [1, 3].length →
      (runCells failAt50_3 [0] ((rowMajorGrid [50] [1, 3]).take 1) initLists).1.tree_count.length = 1) ∧
    ((tuned_rf_sweep failAt50_3 [0] [50] [1, 3]).1.tree_count.length =
        (tuned_rf_sweep failAt50_3 [0] [50] [1, 3]).1.tree_depth.length ∧
      (tuned_rf_sweep failAt50_3 [0] [50] [1, 3]).1.tree_depth.length =
        (tuned_rf_sweep failAt50_3 [0] [50] [1, 3]).1.tuned_rf_MSE.length ∧
      (tuned_rf_sweep failAt50_3 [0] [50] [1, 3]).1.tuned_rf_MSE.length =
        (tuned_rf_sweep failAt50_3 [0] [50] [1, 3]).1.tuned_rf_R2.length) :=
  C10_result_lists_equal_length failAt50_3 [0] [50] [1, 3] 1

/-! ### No hyperparameter validation, no schema check (claims C2, C3) -/

theorem runCells_cons_head (fit : FitPredict) (y_test : List ℚ) (c : Nat × Nat)
    (rest : List (Nat × Nat)) (s : SweepState) :
    (runCells fit y_test (c :: rest) s).2.1.head? = some c := by
  obtain ⟨t, d⟩ := c
  simp only [runCells]
  cases fit t d <;> rfl

theorem runCells_cons_error (fit : FitPredict) (y_test : List ℚ) (t d : Nat)
    (rest : List (Nat × Nat)) (s : SweepState) (e : String)
    (hfail : fit t d = Except.error e) :
    runCells fit y_test ((t, d) :: rest) s = (s, [(t, d)], some e) := by
  simp only [runCells, hfail]

/-- A library model reflecting sklearn behaviour for `n_estimators = 0`:
`RandomForestRegressor(n_estimators = 0).fit(...)` raises `ValueError`
inside the `fit` call (the non-positive check is the library's, performed
during fitting, not beforehand). -/
def sklearnFitZeroTrees : FitPredict :=
  fun t _d => if t = 0 then Except.error "ValueError" else Except.ok [0]

/-- Counterexample to Claim C2: with `tree_counts = [0]` the sweep performs
no validation — `fit` IS invoked at grid cell `(0, 1)` (so model fitting is
attempted with the non-positive tree count), and the surfaced failure is
the library's `ValueError` raised inside that fit call, not an
`InvalidHyperparameter` raised before fitting. -/
theorem C2_counterexample :
    (tuned_rf_sweep sklearnFitZeroTrees [0] [0] [1]).2.1 = [(0, 1)] ∧
    (tuned_rf_sweep sklearnFitZeroTrees [0] [0] [1]).2.1 ≠ [] ∧
    (tuned_rf_sweep sklearnFitZeroTrees [0] [0] [1]).2.2 = some "ValueError" := by
  refine ⟨rfl, ?_, rfl⟩
  intro h
  exact List.noConfusion (show ([((0 : Nat), (1 : Nat))] : List (Nat × Nat)) = [] from h)

/-- Claim C2 amended: the sweep contains no hyperparameter validation.  For
any first tree count `t₀` (in particular a non-positive one) and first
depth `d₀`, the very first action is to invoke the model fit at cell
`(t₀, d₀)`; if the underlying library raises there — as sklearn does for
`n_estimators = 0` — the sweep aborts with the library's own error and
empty result lists.  No `InvalidHyperparameter` error exists and nothing
fails before the first fit is attempted. -/
theorem C2_no_hyperparameter_validation (fit : FitPredict) (y_test : List ℚ)
    (t₀ d₀ : Nat) (trees depths : List Nat) :
    (tuned_rf_sweep fit y_test (t₀ :: trees) (d₀ :: depths)).2.1.head? = some (t₀, d₀) ∧
    (∀ e, fit t₀ d₀ = Except.error e →
      tuned_rf_sweep fit y_test (t₀ :: trees) (d₀ :: depths) =
        (initLists, [(t₀, d₀)], some e)) := by
  have hgrid : rowMajorGrid (t₀ :: trees) (d₀ :: depths) =
      (t₀, d₀) :: (depths.map (fun d => (t₀, d)) ++ rowMajorGrid trees (d₀ :: depths)) := by
    simp [rowMajorGrid]
  rw [tuned_rf_sweep_eq_runCells, hgrid]
  exact ⟨runCells_cons_head fit y_test (t₀, d₀) _ initLists,
    fun e he => runCells_cons_error fit y_test t₀ d₀ _ initLists e he⟩

/-- Witness for the amended C2 at `tree_counts = [0]`, `max_depths = [1]`. -/
theorem C2_no_hyperparameter_validation_witness :
    (tuned_rf_sweep sklearnFitZeroTrees [0] [0] [1]).2.1.head? = some (0, 1) ∧
    tuned_rf_sweep sklearnFitZeroTrees [0] [0] [1] =
      (initLists, [(0, 1)], some "ValueError") := by
  have h := C2_no_hyperparameter_validation sklearnFitZeroTrees [0] 0 1 [] []
  exact ⟨h.1, h.2 "ValueError" rfl⟩

/-- A library model under a train/test schema mismatch (train with 3
feature columns, test with 4): sklearn's `fit` succeeds on the training
matrix and `predict` then raises `ValueError` on the mismatched test
matrix, so the cell's composite fit-and-predict returns the library error
only after the model was fit. -/
def mismatchFitPredict : FitPredict :=
  fun _t _d => Except.error "ValueError: X has 4 features"

/-- Counterexample to Claim C3: under a train/test schema mismatch the
sweep raises no `SchemaMismatch` before fitting — the first grid cell IS
entered and its fit/predict invoked (call trace `[(50, 1)]`), and the
surfaced error is the library's `ValueError` from inside that cell. -/
theorem C3_counterexample :
    (tuned_rf_sweep mismatchFitPredict [0] [50] [1]).2.1 = [(50, 1)] ∧
    (tuned_rf_sweep mismatchFitPredict [0] [50] [1]).2.2 =
      some "ValueError: X has 4 features" :=
  ⟨rfl, rfl⟩

/-- Claim C3 amended: the sweep performs no schema comparison and has no
`SchemaMismatch` error.  Under a schema mismatch the first grid cell's
model is still fit; the failure surfaces as the underlying library's error
raised from inside that cell (sklearn: from `predict`, after `fit`
succeeded), aborting the sweep with empty result lists. -/
theorem C3_no_schema_check (fit : FitPredict) (y_test : List ℚ) (t₀ d₀ : Nat)
    (trees depths : List Nat) (e : String) (hfail : fit t₀ d₀ = Except.error e) :
    (tuned_rf_sweep fit y_test (t₀ :: trees) (d₀ :: depths)).2.2 = some e ∧
    (tuned_rf_sweep fit y_test (t₀ :: trees) (d₀ :: depths)).2.1 = [(t₀, d₀)] ∧
    (tuned_rf_sweep fit y_test (t₀ :: trees) (d₀ :: depths)).1 = initLists := by
  have hgrid : rowMajorGrid (t₀ :: trees) (d₀ :: depths) =
      (t₀, d₀) :: (depths.map (fun d => (t₀, d)) ++ rowMajorGrid trees (d₀ :: depths)) := by
    simp [rowMajorGrid]
  rw [tuned_rf_sweep_eq_runCells, hgrid,
    runCells_cons_error fit y_test t₀ d₀ _ initLists e hfail]
  exact ⟨rfl, rfl, rfl⟩

/-- Witness for the amended C3 on a 1×1 grid under the mismatch model. -/
theorem C3_no_schema_check_witness :
    (tuned_rf_sweep mismatchFitPredict [0] [50] [1]).2.2 =
      some "ValueError: X has 4 features" ∧
    (tuned_rf_sweep mismatchFitPredict [0] [50] [1]).2.1 = [(50, 1)] ∧
    (tuned_rf_sweep mismatchFitPredict [0] [50] [1]).1 = initLists :=
  C3_no_schema_check mismatchFitPredict [0] 50 1 [] [] "ValueError: X has 4 features" rfl

/-! ### Parse failures flow into the descriptor computations (claim C8) -/

/-- A single-atom, non-aromatic molecule (e.g. methane, SMILES `"C"`). -/
def molC : Mol := ⟨[⟨false⟩]⟩

/-- A parser that succeeds only on the SMILES string `"C"`, modelling
`Chem.MolFromSmiles`, which returns a null molecule on a parse failure. -/
def parseOnlyC (s : String) : Option Mol := if s = "C" then some molC else none

/-- Counterexample to Claim C8: with SMILES column `["C", "XX"]` the failed
parse of `"XX"` is stored as a null `mol` entry — not excluded and not
flagged — and that null row flows into the descriptor computation, which
fails with `AttributeError` when `aromatic_calc`'s method calls reach it. -/
theorem C8_counterexample :
    applyMolFromSmiles parseOnlyC ["C", "XX"] = [some molC, none] ∧
    applyDescriptor aromatic_calc (applyMolFromSmiles parseOnlyC ["C", "XX"]) =
      Except.error "AttributeError" :=
  ⟨rfl, rfl⟩

/-- Claim C8 amended: parse-failed molecules are NOT excluded or flagged
before the descriptor computations.  The `mol` column always keeps exactly
one entry per input row, with parse failures stored as nulls; whenever any
row fails to parse, every subsequent descriptor application over the column
raises an exception — `AttributeError` at the null row, unless the
descriptor's own exception (e.g. `ZeroDivisionError` on an earlier
zero-atom molecule) is hit first — instead of operating on a cleaned
dataset. -/
theorem C8_parse_failures_not_excluded (parse : String → Option Mol)
    (smilesCol : List String) :
    (applyMolFromSmiles parse smilesCol).length = smilesCol.length ∧
    ((∃ s ∈ smilesCol, parse s = none) →
      ∀ f : Mol → Option ℚ,
        ∃ e, applyDescriptor f (applyMolFromSmiles parse smilesCol) =
          Except.error e) := by
  induction smilesCol with
  | nil =>
    refine ⟨rfl, fun h f => ?_⟩
    obtain ⟨s, hs, -⟩ := h
    exact absurd hs (List.not_mem_nil s)
  | cons s rest ih =>
    refine ⟨by simp [applyMolFromSmiles], fun h f => ?_⟩
    obtain ⟨s', hs', hp⟩ := h
    simp only [applyMolFromSmiles, List.map_cons]
    cases hparse : parse s with
    | none => exact ⟨"AttributeError", rfl⟩
    | some m =>
      have hrest : ∃ x ∈ rest, parse x = none := by
        rcases List.mem_cons.mp hs' with heq | hmem
        · subst heq
          rw [hparse] at hp
          exact absurd hp (Option.some_ne_none m)
        · exact ⟨s', hmem, hp⟩
      obtain ⟨e, he⟩ := ih.2 hrest f
      simp only [applyMolFromSmiles] at he
      cases hfm : f m with
      | none => exact ⟨"ZeroDivisionError", by simp only [applyDescriptor, hfm]⟩
      | some q => exact ⟨e, by simp only [applyDescriptor, hfm, he]⟩

/-- Witness for the amended C8 on the column `["C", "XX"]`. -/
theorem C8_parse_failures_not_excluded_witness :
    (applyMolFromSmiles parseOnlyC ["C", "XX"]).length = 2 ∧
    (∃ e, applyDescriptor aromatic_calc (applyMolFromSmiles parseOnlyC ["C", "XX"]) =
      Except.error e) := by
  have h := C8_parse_failures_not_excluded parseOnlyC ["C", "XX"]
  exact ⟨h.1, h.2 ⟨"XX", by simp, rfl⟩ aromatic_calc⟩

/-! ### Bounds of `aromatic_calc` (claim C9) -/

/-- Claim C9: for a molecule with at least one atom, `aromatic_calc`
returns the aromatic-atom count divided by the total atom count, a value in
the closed interval `[0, 1]`; the division is unguarded, so a zero-atom
molecule (e.g. parsed from the empty SMILES string) hits the
division-by-zero branch (`ZeroDivisionError`, modelled as `none`). -/
theorem C9_aromatic_calc_bounds (mol : Mol) :
    (0 < mol.GetNumAtoms →
      aromatic_calc mol =
        some ((mol.GetAromaticAtoms.length : ℚ) / (mol.GetNumAtoms : ℚ)) ∧
      ∃ q, aromatic_calc mol = some q ∧ 0 ≤ q ∧ q ≤ 1) ∧
    (mol.GetNumAtoms = 0 → aromatic_calc mol = none) := by
  constructor
  · intro hpos
    have hne : ¬ mol.GetNumAtoms = 0 := Nat.pos_iff_ne_zero.mp hpos
    have heq : aromatic_calc mol =
        some ((mol.GetAromaticAtoms.length : ℚ) / (mol.GetNumAtoms : ℚ)) := by
      simp [aromatic_calc, hne]
    refine ⟨heq, _, heq, ?_, ?_⟩
    · exact div_nonneg (Nat.cast_nonneg _) (Nat.cast_nonneg _)
    · rw [div_le_one (by exact_mod_cast hpos)]
      exact_mod_cast List.length_filter_le _ _
  · intro hzero
    simp [aromatic_calc, hzero]

/-- A six-atom fully aromatic molecule (benzene) and the zero-atom molecule
parsed from the empty SMILES string. -/
def benzene : Mol := ⟨[⟨true⟩, ⟨true⟩, ⟨true⟩, ⟨true⟩, ⟨true⟩, ⟨true⟩]⟩

def emptyMol : Mol := ⟨[]⟩

/-- Witness for C9: benzene's aromatic proportion is `1` and the zero-atom
molecule hits the division-by-zero branch. -/
theorem C9_aromatic_calc_bounds_witness :
    aromatic_calc benzene = some 1 ∧ aromatic_calc emptyMol = none := by
  have hb := (C9_aromatic_calc_bounds benzene).1 (by decide)
  have he := (C9_aromatic_calc_bounds emptyMol).2 rfl
  refine ⟨?_, he⟩
  rw [hb.1]
  norm_num [benzene, Mol.GetAromaticAtoms, Mol.GetNumAtoms]

/-! ### Feature scaling (cell 43)

Cell 43 runs `scaler = StandardScaler()`,
`x_train_scaled = scaler.fit_transform(x_train)` and
`x_test_scaled = scaler.transform(x_test)`.  A feature matrix is modelled
as its list of feature columns.  sklearn's scale of a column is the square
root of its (biased, `ddof = 0`) variance; square roots leave `ℚ`, so the
scale vector is an input constrained by `σ ^ 2 = colVar col` in the
theorems. -/

/-- Mean of a feature column. -/
def colMean (xs : List ℚ) : ℚ := xs.sum / (xs.length : ℚ)

/-- Population variance of a feature column. -/
def colVar (xs : List ℚ) : ℚ :=
  ((xs.map (fun x => (x - colMean xs) ^ 2)).sum) / (xs.length : ℚ)

/-- Standardize a column with the given parameters: `(x - μ) / σ`. -/
def standardize (μ σ : ℚ) (xs : List ℚ) : List ℚ := xs.map (fun x => (x - μ) / σ)

/-- sklearn `StandardScaler` after `fit`: per-column means and scales. -/
structure StandardScaler where
  mean : List ℚ
  scale : List ℚ

/-- `scaler.fit(x)`: the means are computed from `x`'s columns; the scales
are the given square roots of the column variances. -/
def StandardScaler.fit (x : List (List ℚ)) (scale : List ℚ) : StandardScaler :=
  ⟨x.map colMean, scale⟩

/-- `scaler.transform(x)`: standardize each column with the fitted
parameters. -/
def StandardScaler.transform (sc : StandardScaler) (x : List (List ℚ)) :
    List (List ℚ) :=
  List.zipWith (fun p col => standardize p.1 p.2 col) (sc.mean.zip sc.scale) x

/-- Cell 43: fit the scaler on the training matrix only, then transform
both partitions with it. -/
def scalerPipeline (scale : List ℚ) (x_train x_test : List (List ℚ)) :
    (List (List ℚ)) × (List (List ℚ)) :=
  let scaler := StandardScaler.fit x_train scale
  (scaler.transform x_train, scaler.transform x_test)

theorem sum_standardize (μ σ : ℚ) (xs : List ℚ) :
    (standardize μ σ xs).sum = (xs.sum - (xs.length : ℚ) * μ) / σ := by
  induction xs with
  | nil => simp [standardize]
  | cons x rest ih =>
    simp only [standardize, List.map_cons, List.sum_cons, List.length_cons] at ih ⊢
    rw [ih, div_add_div_same]
    congr 1
    push_cast
    ring

theorem sum_map_div (f : ℚ → ℚ) (c : ℚ) (xs : List ℚ) :
    (xs.map (fun x => f x / c)).sum = (xs.map f).sum / c := by
  induction xs with
  | nil => simp
  | cons x rest ih =>
    simp only [List.map_cons, List.sum_cons]
    rw [ih, div_add_div_same]

theorem colMean_standardize (σ : ℚ) (xs : List ℚ) (hxs : xs ≠ []) :
    colMean (standardize (colMean xs) σ xs) = 0 := by
  have hn : (xs.length : ℚ) ≠ 0 :=
    Nat.cast_ne_zero.mpr (List.length_pos.mpr hxs).ne'
  have hsum : (standardize (colMean xs) σ xs).sum = 0 := by
    rw [sum_standardize, colMean, mul_div_cancel₀ _ hn, sub_self, zero_div]
  rw [colMean, hsum, zero_div]

theorem colVar_standardize (σ : ℚ) (xs : List ℚ) (hxs : xs ≠ [])
    (hσ0 : σ ≠ 0) (hσ : σ ^ 2 = colVar xs) :
    colVar (standardize (colMean xs) σ xs) = 1 := by
  have hn : (xs.length : ℚ) ≠ 0 :=
    Nat.cast_ne_zero.mpr (List.length_pos.mpr hxs).ne'
  have hmean := colMean_standardize σ xs hxs
  unfold colVar
  rw [hmean]
  simp only [sub_zero, standardize, List.map_map, List.length_map, Function.comp_def]
  simp only [div_pow]
  rw [sum_map_div (fun x => (x - colMean xs) ^ 2) (σ ^ 2) xs, div_right_comm]
  have : (xs.map (fun x => (x - colMean xs) ^ 2)).sum / (xs.length : ℚ) = colVar xs := rfl
  rw [this, ← hσ]
  exact div_self (pow_ne_zero 2 hσ0)

/-- The fit-and-transform of the training matrix, column by column: each
training column is standardized with its own mean and scale. -/
theorem transform_self_cols (x : List (List ℚ)) (scale : List ℚ) :
    (StandardScaler.fit x scale).transform x =
      ((x.zip scale).map (fun cs => standardize (colMean cs.1) cs.2 cs.1)) := by
  unfold StandardScaler.fit StandardScaler.transform
  induction x generalizing scale with
  | nil => simp
  | cons col rest ih =>
    cases scale with
    | nil => simp
    | cons σ srest =>
      simp only [List.map_cons, List.zip_cons_cons, List.zipWith_cons_cons, List.map_cons]
      rw [ih srest]

/-- Claim C6: the scaling parameters are computed once, from the training
partition only, and applied unchanged to the test partition — the
pipeline's test output is the train-fitted scaler applied to the test
matrix (never refit on the test set), and standardizing with different
parameters gives an observably different output, so no refit is hidden.
Each scaled training feature column has mean exactly `0` and variance
(squared standard deviation) exactly `1`. -/
theorem C6_scaler_fit_train_only (scale : List ℚ) (x_train x_test : List (List ℚ)) :
    (scalerPipeline scale x_train x_test).2 =
      (StandardScaler.fit x_train scale).transform x_test ∧
    (scalerPipeline scale x_train x_test).1 =
      ((x_train.zip scale).map (fun cs => standardize (colMean cs.1) cs.2 cs.1)) ∧
    (∀ col σ μ₁ μ₂, col ≠ [] → σ ≠ 0 → μ₁ ≠ μ₂ →
      standardize μ₁ σ col ≠ standardize μ₂ σ col) ∧
    (∀ cs ∈ x_train.zip scale, cs.1 ≠ [] → cs.2 ≠ 0 → cs.2 ^ 2 = colVar cs.1 →
      colMean (standardize (colMean cs.1) cs.2 cs.1) = 0 ∧
      colVar (standardize (colMean cs.1) cs.2 cs.1) = 1) := by
  refine ⟨rfl, transform_self_cols x_train scale, ?_, ?_⟩
  · intro col σ μ₁ μ₂ hcol hσ hμ heq
    obtain ⟨x, rest, rfl⟩ : ∃ x rest, col = x :: rest := by
      cases col with
      | nil => exact absurd rfl hcol
      | cons x rest => exact ⟨x, rest, rfl⟩
    simp only [standardize, List.map_cons, List.cons.injEq] at heq
    have h1 := heq.1
    apply hμ
    field_simp at h1
    linarith
  · intro cs _ hc hσ0 hσ
    exact ⟨colMean_standardize cs.2 cs.1 hc, colVar_standardize cs.2 cs.1 hc hσ0 hσ⟩

/-- Witness for C6 on the single training column `[1, 3]` (mean `2`,
variance `1`, scale `1`) and test column `[2, 4]`. -/
theorem C6_scaler_fit_train_only_witness :
    (scalerPipeline [1] [[(1 : ℚ), 3]] [[(2 : ℚ), 4]]).2 =
      (StandardScaler.fit [[(1 : ℚ), 3]] [1]).transform [[(2 : ℚ), 4]] ∧
    colMean (standardize (colMean [(1 : ℚ), 3]) 1 [(1 : ℚ), 3]) = 0 ∧
    colVar (standardize (colMean [(1 : ℚ), 3]) 1 [(1 : ℚ), 3]) = 1 ∧
    standardize (2 : ℚ) 1 [(2 : ℚ), 4] ≠ standardize (3 : ℚ) 1 [(2 : ℚ), 4] := by
  have h := C6_scaler_fit_train_only [1] [[(1 : ℚ), 3]] [[(2 : ℚ), 4]]
  have h4 := h.2.2.2 ([(1 : ℚ), 3], 1) (by simp) (by simp) one_ne_zero
    (by norm_num [colVar, colMean])
  exact ⟨h.1, h4.1, h4.2,
    h.2.2.1 [(2 : ℚ), 4] 1 2 3 (by simp) one_ne_zero (by norm_num)⟩

end BCCE
